import Mathlib

/-!
Verification of the page-scan pipeline of `parse_cv_lv.py`.

The Python script fetches web pages, extracts the user-visible text,
locates and downloads the images referenced by the page, runs OCR on
each downloaded image, and detects which of the three target languages
(Latvian, Russian, English) each text blob contains.  All external
effects — the HTTP client (`requests`), the OCR engine
(`PIL` + `pytesseract`), the language detector (`langdetect`),
URL joining (`requests.compat.urljoin`) and Python's per-process
string hash — are modelled as explicit function parameters collected
in an `Effects` structure; a raised exception inside an external call
is modelled as `none` / `Except.error`.  Parsed HTML is modelled as
the list of text leaves and the list of `img` tags that
`BeautifulSoup` would produce, in document order.
-/

/-- A text leaf of the parsed markup tree, as returned by
BeautifulSoup's `find_all(string=True)`: its parent element's tag name
(`"[document]"` for the implicit root, `""` when there is no parent),
whether the node is a `Comment`, and its string content. -/
structure TextLeaf where
  parentName : String
  isComment : Bool
  content : String
deriving Repr, DecidableEq

/-- An `img` element of the parsed markup: its `src` attribute,
`none` when the attribute is absent. -/
structure ImgTag where
  src : Option String
deriving Repr, DecidableEq

/-- A fetched page body after parsing: the text leaves and the `img`
tags, each in document order. -/
structure Html where
  leaves : List TextLeaf
  imgs : List ImgTag
deriving Repr, DecidableEq

/-- One record of the `images` list of a page record:
`{"src": ..., "ocr_text": ..., "ocr_langs": ...}` in the script. -/
structure ImageRecord where
  src : String
  ocr_text : String
  ocr_langs : List String
deriving Repr, DecidableEq

/-- The per-page result dictionary `page_data` built by `scrape_page`:
`url`, `visible_text`, `visible_text_langs`, `images`, and the
optional `error` key that is set only when the page fetch fails. -/
structure PageRecord where
  url : String
  visible_text : String
  visible_text_langs : List String
  images : List ImageRecord
  error : Option String
deriving Repr, DecidableEq

/-- The external world used by one batch run: page fetching (`none`
branches of the `Except` carry `str(e)` of the raised exception),
image fetching (`none` models any exception in `session.get`,
`raise_for_status` or the chunked file write), the OCR chain
(`Image.open` + grayscale + `pytesseract`; `none` models a raised
exception), the language detector (`none` models a raised
`langdetect` exception, `some ls` its ranked list of codes),
`requests.compat.urljoin`, Python's `hash` on strings (fixed within
one process), and the per-page temporary directory path. -/
structure Effects where
  fetchPage : String → Except String Html
  imgFetch : String → Option Unit
  ocrFn : String → Option String
  detect : String → Option (List String)
  urljoin : String → String → String
  pyhash : String → Int
  tmpdir : String

/-- The dict `TARGET_LANGS` mapping "lav", "rus", "eng" to the language names. -/
def TARGET_LANGS : List (String × String) :=
  [("lav", "Latvian"), ("rus", "Russian"), ("eng", "English")]

/-- Membership test of a code among the keys of `TARGET_LANGS`
(Python's `l.lang in TARGET_LANGS` on the dict). -/
def target_member (l : String) : Bool :=
  TARGET_LANGS.any (fun p => p.1 == l)

/-- Python's `str.strip()`: remove leading and trailing whitespace. -/
def py_strip (s : String) : String :=
  ⟨((s.data.dropWhile Char.isWhitespace).reverse.dropWhile Char.isWhitespace).reverse⟩

/-- Function `is_visible_element`: drop a leaf whose parent tag is in the fixed
exclusion set, a comment leaf, or a leaf whose stripped text is empty. -/
def is_visible_element (e : TextLeaf) : Bool :=
  if e.parentName ∈ ["style", "script", "head", "title", "meta", "[document]"] then
    false
  else if e.isComment then
    false
  else if py_strip e.content == "" then
    false
  else
    true

/-- One pass of `re.sub(r"\s+", " ", s)`: every maximal run of
whitespace characters is replaced by a single space.  The boolean
records whether the previously consumed character was whitespace. -/
def collapse_ws_aux : Bool → List Char → List Char
  | _, [] => []
  | prevWS, c :: cs =>
    if c.isWhitespace then
      if prevWS then collapse_ws_aux true cs
      else ' ' :: collapse_ws_aux true cs
    else c :: collapse_ws_aux false cs

/-- Whitespace-run collapsing on a whole string. -/
def collapse_ws (s : String) : String :=
  ⟨collapse_ws_aux false s.data⟩

/-- Function `extract_visible_text`: filter the text leaves with
`is_visible_element`, strip each survivor, join with single spaces,
then collapse whitespace runs.  The argument is the parsed document's
leaf list (what `soup.find_all(string=True)` yields). -/
def extract_visible_text (leaves : List TextLeaf) : String :=
  collapse_ws (String.intercalate " "
    ((leaves.filter is_visible_element).map (fun t => py_strip t.content)))

/-- Function `detect_relevant_langs`: run the detector (an exception yields
`[]`), then keep, in ranked order, only the codes that are keys of
`TARGET_LANGS`. -/
def detect_relevant_langs (detect : String → Option (List String)) (text : String) :
    List String :=
  match detect text with
  | none => []
  | some langs => langs.filter target_member

/-- Python expression `url.split("?")[0]`: the part of the URL before the first `?`
(the whole URL when it has no `?`). -/
def strip_query (url : String) : String :=
  ⟨url.data.takeWhile (fun c => c != '?')⟩

/-- Index of the last occurrence of a character in a list, `none` when
absent (Python's `str.rfind`, with `-1` mapped to `none`). -/
def lastIndexOf (c : Char) : List Char → Option Nat
  | [] => none
  | a :: rest =>
    match lastIndexOf c rest with
    | some j => some (j + 1)
    | none => if a = c then some 0 else none

/-- The extension part of `os.path.splitext` on a POSIX path: the
suffix from the last dot, provided that dot lies after the last `/`
and some character strictly between the start of the basename and
that dot is not itself a dot (so `".bashrc"` has no extension). -/
def splitext_ext (l : List Char) : List Char :=
  let start := match lastIndexOf '/' l with
    | none => 0
    | some s => s + 1
  match lastIndexOf '.' l with
  | none => []
  | some d =>
    if decide (start ≤ d) &&
        ((List.range d).drop start).any (fun i => !(l.getD i '.' == '.')) then
      l.drop d
    else []

/-- The suffix chosen by `download_image`:
`os.path.splitext(url.split("?")[0])[1][:5] or ".jpg"`. -/
def img_suffix (url : String) : String :=
  let ext := splitext_ext (strip_query url).data
  let s := ext.take 5
  ⟨if s.isEmpty then ".jpg".data else s⟩

/-- The destination file name chosen by `download_image`: the stem
built from the absolute value of the URL's hash, then the suffix. -/
def img_filename (pyhash : String → Int) (url : String) : String :=
  "img_" ++ toString (pyhash url).natAbs ++ img_suffix url

/-- Function `download_image`: any exception while fetching or writing yields
`none`; success yields the path of the file written under the
temporary directory. -/
def download_image (imgFetch : String → Option Unit) (pyhash : String → Int)
    (tmpdir url : String) : Option String :=
  match imgFetch url with
  | none => none
  | some _ => some (tmpdir ++ "/" ++ img_filename pyhash url)

/-- Function `ocr_image`: any exception while opening, converting or
recognising the image yields the empty string. -/
def ocr_image (ocrFn : String → Option String) (fp : String) : String :=
  (ocrFn fp).getD ""

/-- Python's `s.startswith(pre)`. -/
def py_startswith (s pre : String) : Bool :=
  pre.data.isPrefixOf s.data

/-- The `src` resolution of the image loop of `scrape_page`:
`src if src.startswith("http") else urljoin(url, src)`. -/
def resolve_src (urljoin : String → String → String) (pageUrl src : String) : String :=
  if py_startswith src "http" then src else urljoin pageUrl src

/-- The image loop of `scrape_page`: skip tags whose `src` is absent
or empty, resolve the URL, download (a failed download contributes
nothing), OCR, detect languages, and append an `ImageRecord`. -/
def process_images (fx : Effects) (pageUrl : String) : List ImgTag → List ImageRecord
  | [] => []
  | img :: rest =>
    let src := img.src.getD ""
    if src == "" then process_images fx pageUrl rest
    else
      let img_url := resolve_src fx.urljoin pageUrl src
      match download_image fx.imgFetch fx.pyhash fx.tmpdir img_url with
      | none => process_images fx pageUrl rest
      | some fp =>
        let t := ocr_image fx.ocrFn fp
        ⟨img_url, t, detect_relevant_langs fx.detect t⟩ :: process_images fx pageUrl rest

/-- Function `scrape_page`: fetch the page (any exception returns the record
with only `url` and `error` set), extract the visible text and its
languages, then — when the page has `img` tags — run the image loop. -/
def scrape_page (fx : Effects) (url : String) : PageRecord :=
  match fx.fetchPage url with
  | .error e => ⟨url, "", [], [], some e⟩
  | .ok html =>
    let visible_text := extract_visible_text html.leaves
    let langs := detect_relevant_langs fx.detect visible_text
    if html.imgs.isEmpty then
      ⟨url, visible_text, langs, [], none⟩
    else
      ⟨url, visible_text, langs, process_images fx url html.imgs, none⟩

/-- The batch loop of `main`: `results.append(scrape_page(url, session))`
for each URL in order. -/
def main_results (fx : Effects) (urls : List String) : List PageRecord :=
  urls.foldl (fun acc url => acc ++ [scrape_page fx url]) []

/-- The Image Locator of the spec, read off the image loop of
`scrape_page` with the download/OCR steps stripped: skip tags whose
`src` attribute is absent or empty, resolve the rest. -/
def locate_images (urljoin : String → String → String) (pageUrl : String) :
    List ImgTag → List String
  | [] => []
  | img :: rest =>
    let src := img.src.getD ""
    if src == "" then locate_images urljoin pageUrl rest
    else resolve_src urljoin pageUrl src :: locate_images urljoin pageUrl rest

/-- An `img` tag bearing a non-empty `src` attribute. -/
def has_src (i : ImgTag) : Bool := !(i.src.getD "" == "")

/-- Download success of one `img` tag's resolved URL. -/
def download_ok (fx : Effects) (pageUrl : String) (i : ImgTag) : Bool :=
  (download_image fx.imgFetch fx.pyhash fx.tmpdir
    (resolve_src fx.urljoin pageUrl (i.src.getD ""))).isSome

/-- The suffix rule in the spec's wording: the URL's path extension
(query string stripped first), truncated to its first 5 characters,
or the generic `.jpg` when the path has no extension. -/
def img_suffix_spec (url : String) : String :=
  let ext := splitext_ext (strip_query url).data
  if ext.isEmpty then ".jpg" else ⟨ext.take 5⟩

/-- C1: a failed page fetch yields a record with only `url` and
`error` populated — `visible_text`, `visible_text_langs` and `images`
keep their defaults, and the record is a constant independent of the
remaining effects, so no extraction or image step contributes to it;
conversely a successful fetch yields a record with no `error`. -/
theorem c1_page_fetch_failure_isolation
    (fx fx2 : Effects) (url url2 e : String) (html : Html)
    (hfail : fx.fetchPage url = .error e)
    (hok : fx2.fetchPage url2 = .ok html) :
    scrape_page fx url = ⟨url, "", [], [], some e⟩ ∧
    (scrape_page fx2 url2).error = none := by
  constructor
  · simp [scrape_page, hfail]
  · simp only [scrape_page, hok]
    by_cases h : html.imgs.isEmpty <;> simp [h]

/-- Witness for C1 at a concrete failing and a concrete succeeding fetch. -/
theorem c1_witness :
    scrape_page
        ⟨fun _ => .error "boom", fun _ => none, fun _ => none, fun _ => none,
         fun _ s => s, fun _ => 0, "tmp"⟩ "u" = ⟨"u", "", [], [], some "boom"⟩ ∧
    (scrape_page
        ⟨fun _ => .ok ⟨[], []⟩, fun _ => none, fun _ => none, fun _ => none,
         fun _ s => s, fun _ => 0, "tmp"⟩ "v").error = none :=
  c1_page_fetch_failure_isolation _ _ "u" "v" "boom" ⟨[], []⟩ rfl rfl

/-- C4: the Language Detector's output contains only codes of the
supported three-code set, and is a sublist (order-preserving
subsequence) of the underlying detector's ranked output. -/
theorem c4_detector_output_subset_ordered
    (detect : String → Option (List String)) (text : String) (ls : List String)
    (h : detect text = some ls) :
    (detect_relevant_langs detect text).all target_member = true ∧
    List.Sublist (detect_relevant_langs detect text) ls := by
  unfold detect_relevant_langs
  rw [h]
  refine ⟨?_, List.filter_sublist ls⟩
  simp only [List.all_eq_true]
  intro x hx
  exact (List.mem_filter.mp hx).2

/-- Witness for C4 at a detector that ranks a mix of supported and
unsupported codes. -/
theorem c4_witness :
    (detect_relevant_langs (fun _ => some ["lv", "eng", "ru", "lav"]) "t").all
        target_member = true ∧
    List.Sublist (detect_relevant_langs (fun _ => some ["lv", "eng", "ru", "lav"]) "t")
        ["lv", "eng", "ru", "lav"] :=
  c4_detector_output_subset_ordered (fun _ => some ["lv", "eng", "ru", "lav"]) "t"
    ["lv", "eng", "ru", "lav"] rfl

/-- C9: the Image Fetcher maps any failure of the underlying
download to the absent result, and the OCR Extractor maps any failure
of the underlying OCR chain to the empty string; both are total
functions of their inputs, so neither propagates an exception. -/
theorem c9_fetcher_and_ocr_never_raise
    (fx : Effects) (url fp : String)
    (hdl : fx.imgFetch url = none) (hocr : fx.ocrFn fp = none) :
    download_image fx.imgFetch fx.pyhash fx.tmpdir url = none ∧
    ocr_image fx.ocrFn fp = "" := by
  constructor
  · simp [download_image, hdl]
  · simp [ocr_image, hocr]

/-- Witness for C9 at concrete always-failing download and OCR effects. -/
theorem c9_witness :
    download_image
        (Effects.imgFetch ⟨fun _ => .error "x", fun _ => none, fun _ => none,
          fun _ => none, fun _ s => s, fun _ => 0, "tmp"⟩)
        (fun _ => 0) "tmp" "http://a/i.png" = none ∧
    ocr_image (fun _ => none) "tmp/f.png" = "" :=
  c9_fetcher_and_ocr_never_raise
    ⟨fun _ => .error "x", fun _ => none, fun _ => none, fun _ => none,
     fun _ s => s, fun _ => 0, "tmp"⟩ "http://a/i.png" "tmp/f.png" rfl rfl

/-- C7: the Batch Runner's output is exactly the input URL list mapped
through the Page Scanner — same length, same positional order,
record `i` is the scan of URL `i`. -/
theorem c7_batch_order_preserved (fx : Effects) (urls : List String) :
    main_results fx urls = urls.map (scrape_page fx) ∧
    (main_results fx urls).length = urls.length := by
  have aux : ∀ (us : List String) (acc : List PageRecord),
      us.foldl (fun a u => a ++ [scrape_page fx u]) acc
        = acc ++ us.map (scrape_page fx) := by
    intro us
    induction us with
    | nil => intro acc; simp
    | cons u rest ih =>
      intro acc
      simp only [List.foldl_cons, List.map_cons]
      rw [ih]
      simp
  have h1 : main_results fx urls = urls.map (scrape_page fx) := by
    unfold main_results
    rw [aux]
    simp
  exact ⟨h1, by rw [h1]; exact List.length_map urls (scrape_page fx)⟩

/-- Whether a character list contains two consecutive whitespace
characters anywhere. -/
def has_ws_run : List Char → Bool
  | a :: b :: rest => (a.isWhitespace && b.isWhitespace) || has_ws_run (b :: rest)
  | _ => false

/-- After a whitespace run has just been consumed, the collapsed
output cannot begin with a whitespace character. -/
theorem collapse_ws_aux_true_head_not_ws :
    ∀ (cs : List Char) (c : Char) (l : List Char),
      collapse_ws_aux true cs = c :: l → c.isWhitespace = false := by
  intro cs
  induction cs with
  | nil =>
    intro c l h
    simp [collapse_ws_aux] at h
  | cons a rest ih =>
    intro c l h
    by_cases ha : a.isWhitespace = true
    · simp only [collapse_ws_aux, ha, if_true] at h
      exact ih c l h
    · have ha2 : a.isWhitespace = false := by
        cases hb : a.isWhitespace
        · rfl
        · exact absurd hb ha
      simp only [collapse_ws_aux, ha2, Bool.false_eq_true, if_false] at h
      rw [List.cons.injEq] at h
      exact h.1 ▸ ha2

/-- The collapsed output never contains two consecutive whitespace
characters, whatever the prior-whitespace flag. -/
theorem collapse_ws_aux_no_run :
    ∀ (cs : List Char) (b : Bool), has_ws_run (collapse_ws_aux b cs) = false := by
  intro cs
  induction cs with
  | nil => intro b; rfl
  | cons a rest ih =>
    intro b
    by_cases ha : a.isWhitespace = true
    · cases b
      · simp only [collapse_ws_aux, ha, if_true, Bool.false_eq_true, if_false]
        cases hr : collapse_ws_aux true rest with
        | nil => rfl
        | cons d l =>
          have hd : d.isWhitespace = false := collapse_ws_aux_true_head_not_ws rest d l hr
          have ht : has_ws_run (d :: l) = false := by rw [← hr]; exact ih true
          simp [has_ws_run, hd, ht]
      · simp only [collapse_ws_aux, ha, if_true]
        exact ih true
    · have ha2 : a.isWhitespace = false := by
        cases hb : a.isWhitespace
        · rfl
        · exact absurd hb ha
      simp only [collapse_ws_aux, ha2, Bool.false_eq_true, if_false]
      cases hr : collapse_ws_aux false rest with
      | nil => rfl
      | cons d l =>
        have ht : has_ws_run (d :: l) = false := by rw [← hr]; exact ih false
        simp [has_ws_run, ha2, ht]

/-- C5: the Visible-Text Extractor's output contains no run of two or
more consecutive whitespace characters: survivors are joined with a
single space and every whitespace run is collapsed to one space. -/
theorem c5_visible_text_no_whitespace_runs (leaves : List TextLeaf) :
    has_ws_run (extract_visible_text leaves).data = false := by
  unfold extract_visible_text collapse_ws
  exact collapse_ws_aux_no_run _ false

/-- C8: when every text leaf of the document has its parent in the
fixed exclusion set (in particular when all content lies inside
`script`, `style`, or `head`), is a comment, or is whitespace-only,
the Visible-Text Extractor returns the empty string. -/
theorem c8_excluded_content_yields_empty
    (leaves : List TextLeaf)
    (h : ∀ e ∈ leaves,
        e.parentName ∈ (["style", "script", "head", "title", "meta", "[document]"] :
            List String)
        ∨ e.isComment = true ∨ py_strip e.content = "") :
    extract_visible_text leaves = "" := by
  have hfilter : leaves.filter is_visible_element = [] := by
    rw [List.filter_eq_nil_iff]
    intro e he
    simp only [Bool.not_eq_true, is_visible_element]
    rcases h e he with h1 | h1 | h1
    · rw [if_pos h1]
    · split
      · rfl
      · simp [h1]
    · split
      · rfl
      · split
        · rfl
        · simp [h1]
  unfold extract_visible_text
  rw [hfilter]
  rfl

/-- Witness for C8 at a concrete document containing only script and
style text, a comment, and a whitespace-only leaf. -/
theorem c8_witness :
    extract_visible_text
      [⟨"script", false, "var x = 1"⟩, ⟨"style", false, "p red"⟩,
       ⟨"head", false, "zzz"⟩, ⟨"p", true, "a comment"⟩, ⟨"div", false, "   "⟩] = "" :=
  c8_excluded_content_yields_empty _ (by decide)

/-- A detector whose every reported code falls outside `TARGET_LANGS`
makes `detect_relevant_langs` return the empty list. -/
theorem detect_relevant_langs_nil_of_foreign
    (detect : String → Option (List String)) (text : String)
    (hdet : ∀ ls, detect text = some ls → ls.all (fun l => !(target_member l)) = true) :
    detect_relevant_langs detect text = [] := by
  unfold detect_relevant_langs
  cases h : detect text with
  | none => rfl
  | some ls =>
    rw [List.filter_eq_nil_iff]
    intro a ha
    have h2 := List.all_eq_true.mp (hdet ls h) a ha
    simp only [Bool.not_eq_true'] at h2
    simp [h2]

/-- Every record produced by the image loop carries as `ocr_langs`
the detector run of its own `ocr_text`. -/
theorem process_images_ocr_langs_detected (fx : Effects) (pageUrl : String) :
    ∀ (imgs : List ImgTag) (r : ImageRecord), r ∈ process_images fx pageUrl imgs →
      r.ocr_langs = detect_relevant_langs fx.detect r.ocr_text := by
  intro imgs
  induction imgs with
  | nil =>
    intro r hr
    simp [process_images] at hr
  | cons img rest ih =>
    intro r hr
    simp only [process_images] at hr
    split at hr
    · exact ih r hr
    · split at hr
      · exact ih r hr
      · rcases List.mem_cons.mp hr with h | h
        · subst h; rfl
        · exact ih r h

/-- C3: under any detector whose every reported code lies outside the
exact string set of `TARGET_LANGS` keys (for instance the two-letter
ISO-639-1 codes that `langdetect` actually produces),
`detect_relevant_langs` returns the empty list, and in every scanned
page the `visible_text_langs` field and every image's `ocr_langs`
field are empty. -/
theorem c3_foreign_detector_codes_yield_empty
    (fx : Effects) (url text : String)
    (hdet : ∀ t ls, fx.detect t = some ls →
        ls.all (fun l => !(target_member l)) = true) :
    detect_relevant_langs fx.detect text = [] ∧
    (scrape_page fx url).visible_text_langs = [] ∧
    (scrape_page fx url).images.all (fun r => r.ocr_langs.isEmpty) = true := by
  have hnil : ∀ t, detect_relevant_langs fx.detect t = [] := fun t =>
    detect_relevant_langs_nil_of_foreign fx.detect t (fun ls h => hdet t ls h)
  refine ⟨hnil text, ?_, ?_⟩
  · unfold scrape_page
    cases hf : fx.fetchPage url with
    | error e => rfl
    | ok html =>
      by_cases h : html.imgs.isEmpty <;> simp [h, hnil]
  · unfold scrape_page
    cases hf : fx.fetchPage url with
    | error e => rfl
    | ok html =>
      by_cases h : html.imgs.isEmpty
      · simp [h]
      · simp only [h, Bool.false_eq_true, if_false]
        rw [List.all_eq_true]
        intro r hr
        have h2 := process_images_ocr_langs_detected fx url html.imgs r hr
        simp [h2, hnil]

/-- A concrete world whose detector only reports two-letter codes. -/
def fx_c3 : Effects :=
  ⟨fun _ => .ok ⟨[⟨"p", false, "labdien pasaule"⟩], [⟨some "http://a/x.png"⟩]⟩,
   fun _ => some (), fun _ => some "teksts", fun _ => some ["lv", "ru", "en"],
   fun b r => b ++ r, fun _ => 7, "/tmp"⟩

/-- Witness for C3 at a detector reporting only `lv`, `ru`, `en`. -/
theorem c3_witness :
    detect_relevant_langs fx_c3.detect "labdien" = [] ∧
    (scrape_page fx_c3 "http://p").visible_text_langs = [] ∧
    (scrape_page fx_c3 "http://p").images.all (fun r => r.ocr_langs.isEmpty) = true :=
  c3_foreign_detector_codes_yield_empty fx_c3 "http://p" "labdien"
    (fun t ls h => by injection h with h2; subst h2; decide)

/-- C6: the Image Locator yields exactly one entry per image element
bearing a non-empty `src` attribute, in document order (duplicates
allowed), each resolved against the page URL unless already absolute
(a value with the `http` scheme prefix is taken verbatim); and the
`src` fields actually recorded by the image loop form an
order-preserving subsequence of the located URLs (downloads that fail
drop their entry, nothing is reordered). -/
theorem c6_image_locator_order_and_resolution
    (fx : Effects) (pageUrl : String) (imgs : List ImgTag) :
    locate_images fx.urljoin pageUrl imgs =
      (imgs.filter has_src).map
        (fun i => resolve_src fx.urljoin pageUrl (i.src.getD "")) ∧
    List.Sublist ((process_images fx pageUrl imgs).map (fun r => r.src))
      (locate_images fx.urljoin pageUrl imgs) := by
  constructor
  · induction imgs with
    | nil => rfl
    | cons img rest ih =>
      by_cases h : (img.src.getD "" == "") = true
      · have h2 : has_src img = false := by simp [has_src, h]
        simp only [locate_images, h, if_true, List.filter_cons, h2,
          Bool.false_eq_true, if_false]
        exact ih
      · have h2 : has_src img = true := by
          simp only [has_src, Bool.not_eq_true']
          simpa using h
        simp only [locate_images, h, Bool.false_eq_true, if_false, List.filter_cons,
          h2, if_true, List.map_cons]
        rw [ih]
  · induction imgs with
    | nil => simp [process_images, locate_images]
    | cons img rest ih =>
      by_cases h : (img.src.getD "" == "") = true
      · simpa only [process_images, locate_images, h, if_true] using ih
      · simp only [process_images, locate_images, h, Bool.false_eq_true, if_false]
        cases hdl : download_image fx.imgFetch fx.pyhash fx.tmpdir
            (resolve_src fx.urljoin pageUrl (img.src.getD "")) with
        | none => exact List.Sublist.cons _ ih
        | some fp =>
          simp only [List.map_cons]
          exact List.Sublist.cons₂ _ ih

/-- C10, spec side: the truncate-then-default rule stated as
default-when-no-extension, then truncate to 5 characters. -/
theorem img_suffix_eq_spec (url : String) : img_suffix url = img_suffix_spec url := by
  simp only [img_suffix, img_suffix_spec]
  generalize splitext_ext (strip_query url).data = ext
  cases ext with
  | nil => rfl
  | cons a t => rfl

/-- C10: the Image Fetcher's destination file name is a pure function
of the URL (deterministic within one run, where the hash is fixed): a
constant stem built from the URL's hash, followed by the suffix; and
the suffix obeys the spec's rule — the first 5 characters of the
query-stripped path's extension, defaulting to `.jpg` when there is
no extension — and never exceeds 5 characters. -/
theorem c10_download_filename_rule (pyhash : String → Int) (url : String) :
    img_filename pyhash url = "img_" ++ toString (pyhash url).natAbs ++ img_suffix url ∧
    img_suffix url = img_suffix_spec url ∧
    (img_suffix url).data.length ≤ 5 := by
  refine ⟨rfl, img_suffix_eq_spec url, ?_⟩
  simp only [img_suffix]
  generalize splitext_ext (strip_query url).data = ext
  cases ext with
  | nil => simp
  | cons a t =>
    simp only [List.take, List.isEmpty_cons, Bool.false_eq_true, if_false]
    simp [List.length_take]

/-- Sanity check: a `.png` URL with a query string keeps `.png`. -/
theorem img_suffix_png_example : img_suffix "http://a/x.png?q=1" = ".png" := by decide

/-- Sanity check: a URL whose path has no extension defaults to `.jpg`;
the dot in the host does not count. -/
theorem img_suffix_default_example : img_suffix "http://a.com/x" = ".jpg" := by decide

/-- Sanity check: a long extension is truncated to 5 characters. -/
theorem img_suffix_truncate_example :
    img_suffix "http://a/x.jpeg2000" = ".jpeg" := by decide

/-- Sanity check: a dotfile basename has no extension. -/
theorem img_suffix_dotfile_example : img_suffix "http://a/.bashrc" = ".jpg" := by decide

/-- Counting with a conjunctive filter never exceeds counting with
its first conjunct alone. -/
theorem length_filter_and_le {a : Type} (p q : a → Bool) (l : List a) :
    (l.filter (fun x => p x && q x)).length ≤ (l.filter p).length := by
  induction l with
  | nil => simp
  | cons x t ih =>
    simp only [List.filter_cons]
    cases hp : p x <;> cases hq : q x <;> simp [hp, hq] <;> omega

/-- The image loop records exactly the images that bear a non-empty
`src` and whose download succeeds: its length is the number of
`src`-bearing image elements minus the number of those whose download
fails — on any page, `src`-less elements freely mixed in. -/
theorem process_images_length_eq (fx : Effects) (pageUrl : String) :
    ∀ imgs : List ImgTag,
      (process_images fx pageUrl imgs).length
        = (imgs.filter has_src).length
          - (imgs.filter (fun i => has_src i && !(download_ok fx pageUrl i))).length := by
  intro imgs
  induction imgs with
  | nil => rfl
  | cons img rest ih =>
    by_cases hb : (img.src.getD "" == "") = true
    · have h1 : has_src img = false := by simp [has_src, hb]
      simp only [process_images, hb, if_true, List.filter_cons, h1,
        Bool.false_eq_true, if_false, Bool.false_and]
      exact ih
    · have hx : (img.src.getD "" == "") = false := by
        cases hc : (img.src.getD "" == "")
        · rfl
        · exact absurd hc hb
      have h1 : has_src img = true := by simp [has_src, hx]
      have hle : (rest.filter (fun i => has_src i && !(download_ok fx pageUrl i))).length
          ≤ (rest.filter has_src).length :=
        length_filter_and_le has_src (fun i => !(download_ok fx pageUrl i)) rest
      simp only [process_images, hx, Bool.false_eq_true, if_false]
      cases hdl : download_image fx.imgFetch fx.pyhash fx.tmpdir
          (resolve_src fx.urljoin pageUrl (img.src.getD "")) with
      | none =>
        have hok : download_ok fx pageUrl img = false := by
          simp [download_ok, hdl]
        simp [List.filter_cons, h1, hok]
        omega
      | some fp =>
        have hok : download_ok fx pageUrl img = true := by
          simp [download_ok, hdl]
        simp [List.filter_cons, h1, hok]
        omega

/-- C2 (amended): on any successfully fetched page the `images` list
has length N − M, where N counts the image elements bearing a
non-empty `src` attribute and M counts those of them whose download
fails; every such element whose download succeeds contributes exactly
one `ImageRecord` — whatever OCR and detection then do — and that
record has empty `ocr_text` whenever its OCR fails, and empty
`ocr_langs` whenever language detection of its OCR text fails. -/
theorem c2_images_count_and_failure_records
    (fx : Effects) (pageUrl : String) (imgs rest : List ImgTag) (img : ImgTag)
    (fp : String)
    (hsz : (img.src.getD "" == "") = false)
    (hdl : download_image fx.imgFetch fx.pyhash fx.tmpdir
        (resolve_src fx.urljoin pageUrl (img.src.getD "")) = some fp) :
    (process_images fx pageUrl imgs).length
      = (imgs.filter has_src).length
        - (imgs.filter (fun i => has_src i && !(download_ok fx pageUrl i))).length ∧
    process_images fx pageUrl (img :: rest)
      = ⟨resolve_src fx.urljoin pageUrl (img.src.getD ""),
         ocr_image fx.ocrFn fp,
         detect_relevant_langs fx.detect (ocr_image fx.ocrFn fp)⟩
          :: process_images fx pageUrl rest ∧
    (fx.ocrFn fp = none → ocr_image fx.ocrFn fp = "") ∧
    (fx.detect (ocr_image fx.ocrFn fp) = none →
      detect_relevant_langs fx.detect (ocr_image fx.ocrFn fp) = []) := by
  refine ⟨process_images_length_eq fx pageUrl imgs, ?_, ?_, ?_⟩
  · simp only [process_images, hsz, Bool.false_eq_true, if_false, hdl]
  · intro h
    simp [ocr_image, h]
  · intro h
    simp [detect_relevant_langs, h]

/-- A concrete world in which exactly one image URL downloads and OCR
and detection always raise. -/
def fx_c2 : Effects :=
  ⟨fun _ => .ok ⟨[], []⟩,
   fun u => if u == "http://a/x.png" then some () else none,
   fun _ => none, fun _ => none, fun b r => b ++ r, fun _ => 5, "/tmp"⟩

/-- Witness for C2 (amended) on a mixed page: one succeeding
download, one failing download, one `src`-less element; OCR and
detection fail. -/
theorem c2_witness :
    (process_images fx_c2 "http://p"
        [⟨some "http://a/x.png"⟩, ⟨some "http://a/y.png"⟩, ⟨none⟩]).length
      = (([⟨some "http://a/x.png"⟩, ⟨some "http://a/y.png"⟩, ⟨none⟩] :
            List ImgTag).filter has_src).length
        - (([⟨some "http://a/x.png"⟩, ⟨some "http://a/y.png"⟩, ⟨none⟩] :
            List ImgTag).filter
            (fun i => has_src i && !(download_ok fx_c2 "http://p" i))).length ∧
    process_images fx_c2 "http://p" [⟨some "http://a/x.png"⟩]
      = ⟨resolve_src fx_c2.urljoin "http://p"
            ((⟨some "http://a/x.png"⟩ : ImgTag).src.getD ""),
         ocr_image fx_c2.ocrFn "/tmp/img_5.png",
         detect_relevant_langs fx_c2.detect (ocr_image fx_c2.ocrFn "/tmp/img_5.png")⟩
          :: process_images fx_c2 "http://p" [] ∧
    (fx_c2.ocrFn "/tmp/img_5.png" = none →
      ocr_image fx_c2.ocrFn "/tmp/img_5.png" = "") ∧
    (fx_c2.detect (ocr_image fx_c2.ocrFn "/tmp/img_5.png") = none →
      detect_relevant_langs fx_c2.detect (ocr_image fx_c2.ocrFn "/tmp/img_5.png") = []) :=
  c2_images_count_and_failure_records fx_c2 "http://p"
    [⟨some "http://a/x.png"⟩, ⟨some "http://a/y.png"⟩, ⟨none⟩] [] ⟨some "http://a/x.png"⟩
    "/tmp/img_5.png" (by decide) (by decide)

/-- The page of the C2 counterexample: one image element with no
`src` attribute. -/
def html_srcless : Html := ⟨[], [⟨none⟩]⟩

/-- A world fetching that page, in which every download succeeds, so
no image can fail to download. -/
def fx_c2_cx : Effects :=
  ⟨fun _ => .ok html_srcless, fun _ => some (), fun _ => some "", fun _ => some [],
   fun b r => b ++ r, fun _ => 0, "/tmp"⟩

/-- Counterexample to C2 as stated: the successfully fetched page has
N = 1 image elements, the Image Fetcher succeeds on every URL (M = 0
downloads fail; indeed none is attempted), yet the `images` list has
length 0, not N − M = 1: the element is skipped for lacking a `src`
attribute, not for failing to download. -/
theorem c2_counterexample :
    (scrape_page fx_c2_cx "http://p").error = none ∧
    html_srcless.imgs.length = 1 ∧
    (scrape_page fx_c2_cx "http://p").images.length = 0 := by
  decide
